import Mathlib

/-!
Shallow embedding of the lucent-flow request layer: `RequestDeduplicator`
(src/.github/feature_request.yml, appended TypeScript, lines 38-110),
`OptimisticUpdates` (src/unnamed/part_003), `QueryBuilder`
(src/src/utils/queryBuilder.ts) and the `lucentQuery` pipeline
(src/unnamed/part_010).

JavaScript `Map` objects are modelled as insertion-ordered association
lists with string keys; `Map.set` overwrites in place, `Map.delete`
removes the entry.  `Date.now()` is modelled by an explicit `now : Nat`
argument threaded to every operation that reads the clock.  Promises are
modelled by explicit operation identities (`opId`): an in-flight promise
is named by the identity of the underlying invocation, and settlement is
an explicit step of a trace semantics.
-/

namespace Lucent

abbrev AssocList (α : Type) := List (String × α)

def mapGet {α : Type} (m : AssocList α) (k : String) : Option α :=
  match m with
  | [] => none
  | (k', v) :: rest => if k' = k then some v else mapGet rest k

def mapSet {α : Type} (m : AssocList α) (k : String) (v : α) : AssocList α :=
  match m with
  | [] => [(k, v)]
  | (k', v') :: rest =>
      if k' = k then (k', v) :: rest else (k', v') :: mapSet rest k v

def mapDelete {α : Type} (m : AssocList α) (k : String) : AssocList α :=
  match m with
  | [] => []
  | (k', v') :: rest =>
      if k' = k then rest else (k', v') :: mapDelete rest k

/-- JavaScript runtime values, as far as the request layer inspects them:
the pipeline only ever branches on truthiness, so primitive values are kept
and all objects and arrays are collapsed to an opaque tag.  Numbers are
modelled as exact integers. -/
inductive JVal : Type
  | jnull
  | jbool (b : Bool)
  | jnum (n : Int)
  | jstr (s : String)
  | jobj (tag : Nat)
  deriving DecidableEq, Repr

/-- Truthiness of a JavaScript value (`if (v)`). -/
def JVal.truthy : JVal → Bool
  | .jnull => false
  | .jbool b => b
  | .jnum n => n != 0
  | .jstr s => s != ""
  | .jobj _ => true

/-- Truthiness of a string (`if (s)` for a string-typed `s`). -/
def strTruthy (s : String) : Bool := s != ""

/-!
RequestDeduplicator (source: the TypeScript appended to
src/.github/feature_request.yml, lines 38-110, identical to the copy in
src/.github/workflows/scripts/publish.js lines 13-85).

The class holds `pendingRequests : Map<string, PendingRequest>` and
`cache : Map<string, (data, timestamp)>` with `CACHE_TTL = 5 * 60 * 1000`.
The body of `deduplicate` contains no `await`, so the whole call up to and
including `pendingRequests.set` is one atomic step of the event loop; the
`.then` continuation attached to `requestFn()` is another atomic step that
runs when the underlying promise fulfills.  The source attaches no
rejection handler, so promise rejection runs no continuation at all.
Promise identity is modelled by a fresh `opId` drawn from a `nextOp`
counter (modelling apparatus; the source identifies the operation by the
promise object itself).
-/

namespace RequestDeduplicator

def CACHE_TTL : Nat := 5 * 60 * 1000

structure PendingRequest where
  opId : Nat
  timestamp : Nat
  deriving DecidableEq, Repr

structure CacheLine (α : Type) where
  data : α
  timestamp : Nat
  deriving DecidableEq, Repr

structure DedupState (α : Type) where
  pendingRequests : AssocList PendingRequest
  cache : AssocList (CacheLine α)
  nextOp : Nat
  deriving DecidableEq, Repr

/-- A freshly constructed deduplicator: both maps empty. -/
def emptyDedup (α : Type) : DedupState α :=
  { pendingRequests := [], cache := [], nextOp := 0 }

/-- Source `isCacheValid(timestamp)`: `Date.now() - timestamp < CACHE_TTL`.
Subtraction is truncated; a timestamp in the future is valid, as in the
source where a negative difference is below the TTL. -/
def isCacheValid (now timestamp : Nat) : Bool :=
  now - timestamp < CACHE_TTL

/-- What one `deduplicate` call does from the caller's point of view. -/
inductive CallOutcome (α : Type) where
  | cached (data : α)
  | joined (opId : Nat)
  | invoked (opId : Nat)
  deriving DecidableEq, Repr

/-- The pending-request check and new-request creation in `deduplicate`
(the part after the cache check). -/
def deduplicatePending {α : Type} (s : DedupState α) (key : String) (now : Nat) :
    DedupState α × CallOutcome α :=
  match mapGet s.pendingRequests key with
  | some pending => (s, .joined pending.opId)
  | none =>
      ({ s with
          pendingRequests :=
            mapSet s.pendingRequests key { opId := s.nextOp, timestamp := now },
          nextOp := s.nextOp + 1 },
       .invoked s.nextOp)

/-- Source `deduplicate(key, requestFn, useCache = true)`: check the cache
first (only when `useCache`; an expired entry is skipped, not evicted),
then the pending map, else invoke `requestFn` and record the pending
entry. -/
def deduplicate {α : Type} (s : DedupState α) (key : String) (useCache : Bool)
    (now : Nat) : DedupState α × CallOutcome α :=
  match (if useCache then mapGet s.cache key else none) with
  | some cached =>
      if isCacheValid now cached.timestamp then (s, .cached cached.data)
      else deduplicatePending s key now
  | none => deduplicatePending s key now

/-- The `.then` continuation of the created promise: on fulfillment the
result is written to the cache and the pending entry is deleted. -/
def onFulfilled {α : Type} (s : DedupState α) (key : String) (data : α)
    (now : Nat) : DedupState α :=
  { s with
      cache := mapSet s.cache key { data := data, timestamp := now },
      pendingRequests := mapDelete s.pendingRequests key }

/-- On rejection no continuation runs in the source (no rejection handler
is attached), so the deduplicator state is untouched: the pending entry
stays in the map. -/
def onRejected {α : Type} (s : DedupState α) (_key : String) : DedupState α := s

/-- Source `clearCache()`. -/
def clearCache {α : Type} (s : DedupState α) : DedupState α :=
  { s with cache := [] }

/-- Source `clearPending()`. -/
def clearPending {α : Type} (s : DedupState α) : DedupState α :=
  { s with pendingRequests := [] }

/-- Atomic event-loop steps touching one deduplicator: a `deduplicate`
call, the fulfillment of the operation backing key `k`, or its
rejection. -/
inductive DedupEv (α : Type) where
  | call (key : String) (useCache : Bool) (now : Nat)
  | resolve (key : String) (data : α) (now : Nat)
  | reject (key : String) (now : Nat)

/-- Does this event settle the operation for `key`? -/
def DedupEv.isSettleFor {α : Type} : DedupEv α → String → Bool
  | .call _ _ _, _ => false
  | .resolve k _ _, key => k == key
  | .reject k _, key => k == key

/-- The clock value of this event when it is a `deduplicate` call for
`key`. -/
def DedupEv.callTimeFor {α : Type} : DedupEv α → String → Option Nat
  | .call k _ t, key => if k == key then some t else none
  | .resolve _ _ _, _ => none
  | .reject _ _, _ => none

structure CallRecord (α : Type) where
  key : String
  out : CallOutcome α
  deriving DecidableEq, Repr

/-- Run a list of events, returning the final state and the outcome seen
by each `deduplicate` caller, in order. -/
def runTrace {α : Type} (s : DedupState α) :
    List (DedupEv α) → DedupState α × List (CallRecord α)
  | [] => (s, [])
  | .call k u t :: rest =>
      let step := deduplicate s k u t
      let remainder := runTrace step.1 rest
      (remainder.1, { key := k, out := step.2 } :: remainder.2)
  | .resolve k d t :: rest => runTrace (onFulfilled s k d t) rest
  | .reject k _ :: rest => runTrace (onRejected s k) rest

/-- Is there a cache entry for `k` that is fresh at time `t`? -/
def cacheFresh {α : Type} (s : DedupState α) (k : String) (t : Nat) : Bool :=
  match mapGet s.cache k with
  | some c => isCacheValid t c.timestamp
  | none => false

/-- Settlement of a promise: the fulfillment value or the rejection
(identified by a tag standing for the error object). -/
inductive Settled (α : Type) where
  | value (data : α)
  | rejected (errTag : Nat)
  deriving DecidableEq, Repr

/-- The result a caller eventually receives, given how each underlying
operation settles.  A caller served from the cache resolves immediately;
a caller holding the shared promise of operation `i` (whether it created
it or joined it) receives whatever `i` settles to: the `.then(data =>
... return data)` chain passes the fulfillment value and any rejection
through unchanged. -/
def CallOutcome.delivered {α : Type} (settle : Nat → Settled α) :
    CallOutcome α → Settled α
  | .cached d => .value d
  | .joined i => settle i
  | .invoked i => settle i

end RequestDeduplicator

/-!
OptimisticUpdates (source: src/unnamed/part_003).  The class holds
`updates : Map<string, OptimisticUpdate<any>>` with
`UPDATE_TTL = 5 * 60 * 1000`.  The `rollback` closure held by a record is
modelled by an identifier; `rollbackUpdate` returns, alongside the new
registry, the list of rollback callbacks it invoked, in order.
-/

namespace OptimisticUpdates

def UPDATE_TTL : Nat := 5 * 60 * 1000

structure OptimisticUpdate where
  id : String
  data : JVal
  rollbackId : Nat
  timestamp : Nat
  deriving DecidableEq, Repr

abbrev OptState := AssocList OptimisticUpdate

/-- Source `isUpdateValid(timestamp)`: `Date.now() - timestamp < UPDATE_TTL`. -/
def isUpdateValid (now timestamp : Nat) : Bool :=
  now - timestamp < UPDATE_TTL

/-- Source `getUpdate(id)`: the data only if a record exists and is still
valid; otherwise `undefined` (here `none`).  Never mutates the registry. -/
def getUpdate (s : OptState) (id : String) (now : Nat) : Option JVal :=
  match mapGet s id with
  | some u => if isUpdateValid now u.timestamp then some u.data else none
  | none => none

/-- Source `removeUpdate(id)`: unconditional delete. -/
def removeUpdate (s : OptState) (id : String) : OptState :=
  mapDelete s id

/-- Source `rollbackUpdate(id)`: if a record exists (no expiry check),
invoke its rollback callback, then remove it; otherwise do nothing. -/
def rollbackUpdate (s : OptState) (id : String) : OptState × List Nat :=
  match mapGet s id with
  | some u => (removeUpdate s id, [u.rollbackId])
  | none => (s, [])

/-- Source private `cleanup()`: delete every record whose age exceeds the
TTL. -/
def cleanup (s : OptState) (now : Nat) : OptState :=
  s.filter (fun kv => isUpdateValid now kv.2.timestamp)

/-- Source `addUpdate(id, data, rollback)`: set (or overwrite) the record
with the current timestamp, then run the opportunistic cleanup pass. -/
def addUpdate (s : OptState) (id : String) (data : JVal) (rollbackId : Nat)
    (now : Nat) : OptState :=
  cleanup
    (mapSet s id { id := id, data := data, rollbackId := rollbackId, timestamp := now })
    now

end OptimisticUpdates

/-!
QueryBuilder (source: src/src/utils/queryBuilder.ts).  The builder holds
`query : Partial<LucentQueryArgs>` of which the chain methods only ever
populate the `params` field, each via object spread
`{...this.query.params, ...}` (merge, later keys overwrite in place).
`params` values are strings, numbers or booleans.
-/

structure QueryBuilder where
  baseUrl : String
  queryParams : Option (AssocList JVal)
  deriving DecidableEq, Repr

/-- `new QueryBuilder(baseUrl)`: the parameter bag starts empty
(`query = \x7b\x7d`, no `params` field yet). -/
def QueryBuilder.init (baseUrl : String) : QueryBuilder :=
  { baseUrl := baseUrl, queryParams := none }

/-- Spreading a possibly-absent `this.query.params`. -/
def QueryBuilder.paramsOrEmpty (b : QueryBuilder) : AssocList JVal :=
  b.queryParams.getD []

/-- Object spread `\x7b...base, ...extra\x7d` on string-keyed records. -/
def spreadInto (base extra : AssocList JVal) : AssocList JVal :=
  extra.foldl (fun acc kv => mapSet acc kv.1 kv.2) base

/-- Source `select(fields)`: sets `select` to the comma-joined list. -/
def QueryBuilder.select (b : QueryBuilder) (fields : List String) : QueryBuilder :=
  { b with queryParams := some (mapSet b.paramsOrEmpty "select" (.jstr (String.intercalate "," fields))) }

/-- Source `where(conditions)`: merges the conditions into the params. -/
def QueryBuilder.«where» (b : QueryBuilder) (conditions : AssocList JVal) : QueryBuilder :=
  { b with queryParams := some (spreadInto b.paramsOrEmpty conditions) }

/-- Source `orderBy(field, direction = 'asc')`: sets `sort` to the field
name, prefixed with a minus sign exactly when the direction is
`'desc'`. -/
def QueryBuilder.orderBy (b : QueryBuilder) (field : String) (direction : String) : QueryBuilder :=
  { b with queryParams := some (mapSet b.paramsOrEmpty "sort" (.jstr ((if direction = "desc" then "-" else "") ++ field))) }

/-- Source `limit(count)`: sets `_limit`. -/
def QueryBuilder.limit (b : QueryBuilder) (count : Int) : QueryBuilder :=
  { b with queryParams := some (mapSet b.paramsOrEmpty "_limit" (.jnum count)) }

/-- Source `offset(count)`: sets `_start`. -/
def QueryBuilder.offset (b : QueryBuilder) (count : Int) : QueryBuilder :=
  { b with queryParams := some (mapSet b.paramsOrEmpty "_start" (.jnum count)) }

/-- Source `include(relations)`: sets `_embed` to the comma-joined list. -/
def QueryBuilder.«include» (b : QueryBuilder) (relations : List String) : QueryBuilder :=
  { b with queryParams := some (mapSet b.paramsOrEmpty "_embed" (.jstr (String.intercalate "," relations))) }

/-- Source `search(query)`: sets `q`. -/
def QueryBuilder.search (b : QueryBuilder) (query : String) : QueryBuilder :=
  { b with queryParams := some (mapSet b.paramsOrEmpty "q" (.jstr query)) }

/-- The descriptor `build(endpoint)` produces. -/
structure BuiltQuery where
  url : String
  method : String
  params : Option (AssocList JVal)
  deriving DecidableEq, Repr

/-- Source `build(endpoint)`: `\x7b url: baseUrl + endpoint, method: 'GET',
...this.query \x7d`; the spread contributes the `params` field when it was
ever set and nothing otherwise.  The builder is not reset. -/
def QueryBuilder.build (b : QueryBuilder) (endpoint : String) : BuiltQuery :=
  { url := b.baseUrl ++ endpoint, method := "GET", params := b.queryParams }

/-- Source `reset()`: clears the parameter bag. -/
def QueryBuilder.reset (b : QueryBuilder) : QueryBuilder :=
  { b with queryParams := none }

/-!
Request pipeline `lucentQuery` (source: src/unnamed/part_010; argument and
configuration types from the appended TypeScript of src/unnamed/part_021).
The produced callable is modelled as a pure function of the configuration,
the two shared registries, an environment (the fetch capability, the value
of any in-flight promise joined through the deduplicator, and the clock),
and the request descriptor.  A single call contains `await` suspension
points, but this embedding describes one call run in isolation, so the
call is a function from the pre-state to the post-state.  Thrown
JavaScript `Error` values are modelled by their message string; within one
pipeline call every thrown value is such an `Error` (the status-validation
throw and the re-wrap construct them, and the fetch capability rejects
with error objects), so the `instanceof Error` test in the catch block is
always true here and the non-`Error` rethrow branch is unreachable.
Timeout aborts surface as fetch rejections and are part of the fetch
oracle.
-/

/-- `responseHandler` kinds of `LucentQueryArgs`. -/
inductive RespKind where
  | json
  | text
  | blob
  | arrayBuffer
  deriving DecidableEq, Repr

/-- A `Response`-like value: the status plus the body under each of the
four extraction methods the pipeline may call. -/
structure JsResponse where
  status : Nat
  jsonBody : JVal
  textBody : String
  blobBody : JVal
  bufBody : JVal
  deriving DecidableEq, Repr

/-- `new Response()`: status 200, empty body. -/
def emptyResponse : JsResponse :=
  { status := 200, jsonBody := .jnull, textBody := "", blobBody := .jnull,
    bufBody := .jnull }

/-- `LucentQueryArgs`: optional fields stay optional; their defaults are
applied at the destructuring site inside the callable, as in the source.
`validateStatus` is a function-typed field and is therefore skipped by
`JSON.stringify` when the deduplication key is derived. -/
structure QueryArgs where
  url : String
  method : Option String := none
  body : Option JVal := none
  params : Option (AssocList JVal) := none
  headers : AssocList String := []
  responseHandler : Option RespKind := none
  validateStatus : Option (Nat → Bool) := none
  optimisticUpdateId : Option String := none

/-- The `RequestInit` the pipeline builds: method, headers, optional
serialized body. -/
structure RequestConfig where
  method : String
  headers : AssocList String
  body : Option String
  deriving DecidableEq, Repr

/-- The `meta` of a `LucentQueryResult`: the `Request` it constructs
(kept as url plus init) and the `Response`. -/
structure MetaInfo where
  requestUrl : String
  requestInit : RequestConfig
  response : JsResponse
  deriving DecidableEq, Repr

/-- `LucentQueryResult`. -/
structure QueryResult where
  data : JVal
  meta : MetaInfo
  deriving DecidableEq, Repr

/-- Outcome of the fetch capability: a response, or a rejection (network
error or timeout abort) carrying the error message. -/
inductive FetchOutcome where
  | ok (resp : JsResponse)
  | netErr (msg : String)

/-- `LucentQueryConfig` with the source defaults.  Interceptors are the
caller-supplied functions; error interceptors receive and return `Error`
values, modelled by their messages. -/
structure PipeConfig where
  baseUrl : String := ""
  prepareHeaders : AssocList String → AssocList String := id
  timeout : Nat := 30000
  requestInterceptors : List (QueryArgs → QueryArgs) := []
  responseInterceptors : List (QueryResult → QueryResult) := []
  errorInterceptors : List (String → String) := []
  enableDeduplication : Bool := true
  enableOptimisticUpdates : Bool := false

/-- The environment of one pipeline call: the fetch capability, the
eventual value of the shared promise behind any pending deduplicator entry
the call may join, and the clock. -/
structure PipeEnv where
  fetchFn : String → RequestConfig → FetchOutcome
  pendingResult : String → Except String QueryResult
  now : Nat

/-- Source `defaultValidateStatus`: `status >= 200 && status < 300`. -/
def defaultValidateStatus (status : Nat) : Bool :=
  200 ≤ status && status < 300

/-- Chained application of the request interceptors:
`for (const i of requestInterceptors) modifiedArgs = await i(modifiedArgs)`. -/
def applyRequestInterceptors (fs : List (QueryArgs → QueryArgs))
    (a : QueryArgs) : QueryArgs :=
  fs.foldl (fun acc f => f acc) a

/-- Chained application of the response interceptors:
`for (const i of responseInterceptors) modifiedResult = await i(modifiedResult)`. -/
def applyResponseInterceptors (fs : List (QueryResult → QueryResult))
    (r : QueryResult) : QueryResult :=
  fs.foldl (fun acc f => f acc) r

/-- The error-interceptor loop of the source:
`for (const i of errorInterceptors) modifiedError = await i(error)` — each
interceptor is applied to the ORIGINAL error, not to the value returned by
the previous interceptor, so the accumulator keeps only the last
interceptor's result. -/
def applyErrorInterceptors (fs : List (String → String)) (e : String) : String :=
  fs.foldl (fun _acc f => f e) e

/-- `String(v)` conversion used on `params` values. -/
def jvalToString : JVal → String
  | .jnull => "null"
  | .jbool b => if b then "true" else "false"
  | .jnum n => toString n
  | .jstr s => s
  | .jobj _ => "[object Object]"

/-- `JSON.stringify` on a body value (string quoting kept simple: the
claims never inspect the serialized text). -/
def jsonStringify : JVal → String
  | .jnull => "null"
  | .jbool b => if b then "true" else "false"
  | .jnum n => toString n
  | .jstr s => "\"" ++ s ++ "\""
  | .jobj _ => "\x7b\x7d"

/-- `URLSearchParams(...).toString()` over the params entries (standard
percent-encoding elided; no claim inspects the encoded text). -/
def encodeParams (ps : AssocList JVal) : String :=
  String.intercalate "&" (ps.map (fun kv => kv.1 ++ "=" ++ jvalToString kv.2))

/-- `new Headers({ 'Content-Type': 'application/json', ...headers })`:
the per-request headers override the default by object spread. -/
def requestHeadersOf (headers : AssocList String) : AssocList String :=
  headers.foldl (fun acc kv => mapSet acc kv.1 kv.2)
    [("Content-Type", "application/json")]

/-- The full URL and `RequestInit` that `makeRequest` constructs from the
post-interceptor descriptor: query string from `params`, merged and
prepared headers, JSON body only when `body` is truthy
(`...(body && { body: JSON.stringify(body) })`). -/
def buildFetchCall (cfg : PipeConfig) (a : QueryArgs) : String × RequestConfig :=
  let queryString :=
    match a.params with
    | some ps => "?" ++ encodeParams ps
    | none => ""
  let fullUrl := cfg.baseUrl ++ a.url ++ queryString
  let preparedHeaders := cfg.prepareHeaders (requestHeadersOf a.headers)
  (fullUrl,
   { method := a.method.getD "GET",
     headers := preparedHeaders,
     body :=
       match a.body with
       | some b => if b.truthy then some (jsonStringify b) else none
       | none => none })

/-- Source `makeRequest`: build the call, perform the fetch, validate the
status (`throw new Error('Request failed with status ' + status)` on
failure), then extract the body according to `responseHandler`.  Returns
the result or the thrown/rejected error message, plus the fetch calls
performed. -/
def makeRequest (cfg : PipeConfig) (env : PipeEnv) (a : QueryArgs) :
    Except String QueryResult × List (String × RequestConfig) :=
  let call := buildFetchCall cfg a
  match env.fetchFn call.1 call.2 with
  | .netErr msg => (.error msg, [call])
  | .ok response =>
      if !(a.validateStatus.getD defaultValidateStatus) response.status then
        (.error ("Request failed with status " ++ toString response.status), [call])
      else
        let data :=
          match a.responseHandler.getD .json with
          | .json => response.jsonBody
          | .text => .jstr response.textBody
          | .blob => response.blobBody
          | .arrayBuffer => response.bufBody
        (.ok { data := data,
               meta := { requestUrl := call.1, requestInit := call.2,
                         response := response } },
         [call])

/-- A model of `JSON.stringify(modifiedArgs)`, the deduplication key:
every defined data field in declaration order; the function-typed
`validateStatus` is skipped, as `JSON.stringify` skips functions. -/
def serializeArgs (a : QueryArgs) : String :=
  "\x7b" ++ "url:" ++ a.url
    ++ (match a.method with | some m => ",method:" ++ m | none => "")
    ++ (match a.body with | some b => ",body:" ++ jsonStringify b | none => "")
    ++ (match a.params with
        | some ps => ",params:" ++ encodeParams ps
        | none => "")
    ++ ",headers:"
    ++ String.intercalate "," (a.headers.map (fun kv => kv.1 ++ ":" ++ kv.2))
    ++ (match a.responseHandler with
        | some .json => ",responseHandler:json"
        | some .text => ",responseHandler:text"
        | some .blob => ",responseHandler:blob"
        | some .arrayBuffer => ",responseHandler:arrayBuffer"
        | none => "")
    ++ (match a.optimisticUpdateId with
        | some i => ",optimisticUpdateId:" ++ i
        | none => "")
    ++ "\x7d"

/-- The optimistic short-circuit test of the source:
`if (enableOptimisticUpdates && optimisticUpdateId) { const d =
optimisticUpdates.getUpdate(id); if (d) return ... }` — both the id and
the stored data are tested for truthiness. -/
def optShortCircuit (cfg : PipeConfig) (opt : OptimisticUpdates.OptState)
    (now : Nat) (a : QueryArgs) : Option JVal :=
  if cfg.enableOptimisticUpdates then
    match a.optimisticUpdateId with
    | some i =>
        if strTruthy i then
          match OptimisticUpdates.getUpdate opt i now with
          | some d => if d.truthy then some d else none
          | none => none
        else none
    | none => none
  else none

open RequestDeduplicator in
/-- One isolated run of `deduplicate(key, makeRequest)` whose operation,
when actually invoked, settles before anything else touches the
deduplicator: the call step followed, on invocation, by the settlement
continuation.  Joining an existing pending entry yields the eventual value
of that shared promise, supplied by the environment. -/
def deduplicateExec (dedup : DedupState QueryResult) (key : String)
    (useCache : Bool) (now : Nat)
    (run : Unit → Except String QueryResult × List (String × RequestConfig))
    (pendingResult : String → Except String QueryResult) :
    Except String QueryResult × DedupState QueryResult × List (String × RequestConfig) :=
  let step := deduplicate dedup key useCache now
  match step.2 with
  | .cached d => (.ok d, step.1, [])
  | .joined _ => (pendingResult key, step.1, [])
  | .invoked _ =>
      let r := run ()
      match r.1 with
      | .ok data => (.ok data, onFulfilled step.1 key data now, r.2)
      | .error e => (.error e, onRejected step.1 key, r.2)

/-- Effects of one pipeline call: the fetch calls performed and the keys
passed to the deduplicator. -/
structure PipeEffects where
  fetchCalls : List (String × RequestConfig)
  dedupKeys : List String
  deriving DecidableEq, Repr

/-- Result of one pipeline call: a resolved `LucentQueryResult` or a
rejection with an `Error` carrying the given message. -/
inductive PipeResult where
  | ok (r : QueryResult)
  | error (msg : String)
  deriving DecidableEq, Repr

open RequestDeduplicator in
/-- The part of the callable after the optimistic check: the optional
deduplication of `makeRequest` keyed by `JSON.stringify(modifiedArgs)`,
then the response-interceptor chain on the success path. -/
def lucentQueryRest (cfg : PipeConfig) (dedup : DedupState QueryResult)
    (opt : OptimisticUpdates.OptState) (env : PipeEnv) (margs : QueryArgs) :
    Except String QueryResult × DedupState QueryResult ×
      OptimisticUpdates.OptState × PipeEffects :=
  if cfg.enableDeduplication then
    let key := serializeArgs margs
    let r := deduplicateExec dedup key true env.now
        (fun _ => makeRequest cfg env margs) env.pendingResult
    match r.1 with
    | .ok res =>
        (.ok (applyResponseInterceptors cfg.responseInterceptors res),
         r.2.1, opt, { fetchCalls := r.2.2, dedupKeys := [key] })
    | .error e => (.error e, r.2.1, opt, { fetchCalls := r.2.2, dedupKeys := [key] })
  else
    let r := makeRequest cfg env margs
    match r.1 with
    | .ok res =>
        (.ok (applyResponseInterceptors cfg.responseInterceptors res),
         dedup, opt, { fetchCalls := r.2, dedupKeys := [] })
    | .error e => (.error e, dedup, opt, { fetchCalls := r.2, dedupKeys := [] })

open RequestDeduplicator in
/-- The try-block body of the produced callable: request-interceptor
chain, optimistic short-circuit (result wrapped with
`new Request(url, { method })` and `new Response()`), then the rest. -/
def lucentQueryBody (cfg : PipeConfig) (dedup : DedupState QueryResult)
    (opt : OptimisticUpdates.OptState) (env : PipeEnv) (args : QueryArgs) :
    Except String QueryResult × DedupState QueryResult ×
      OptimisticUpdates.OptState × PipeEffects :=
  let margs := applyRequestInterceptors cfg.requestInterceptors args
  match optShortCircuit cfg opt env.now margs with
  | some d =>
      (.ok { data := d,
             meta := { requestUrl := margs.url,
                       requestInit := { method := margs.method.getD "GET",
                                        headers := [], body := none },
                       response := emptyResponse } },
       dedup, opt, { fetchCalls := [], dedupKeys := [] })
  | none => lucentQueryRest cfg dedup opt env margs

open RequestDeduplicator in
/-- The produced callable, catch block included: on any failure the
error-interceptor loop runs and the call rejects with
`new Error('Request failed: ' + modifiedError.message)`. -/
def lucentQuery (cfg : PipeConfig) (dedup : DedupState QueryResult)
    (opt : OptimisticUpdates.OptState) (env : PipeEnv) (args : QueryArgs) :
    PipeResult × DedupState QueryResult × OptimisticUpdates.OptState × PipeEffects :=
  match lucentQueryBody cfg dedup opt env args with
  | (.ok r, d, o, eff) => (.ok r, d, o, eff)
  | (.error e, d, o, eff) =>
      (.error ("Request failed: " ++ applyErrorInterceptors cfg.errorInterceptors e),
       d, o, eff)

/-!
Concrete instances used by the closed demonstrations and witnesses.
-/

/-- A fetch environment whose responses carry the given status and a fixed
JSON body, with clock 0. -/
def statusEnv (st : Nat) : PipeEnv :=
  { fetchFn := fun _ _ =>
      .ok { status := st, jsonBody := .jstr "server", textBody := "",
            blobBody := .jnull, bufBody := .jnull },
    pendingResult := fun _ => .error "unused", now := 0 }

/-- A configuration with the two error interceptors f (prepends "f:") and
g (prepends "g:"), everything else at the source defaults. -/
def errPairConfig : PipeConfig :=
  { errorInterceptors := [fun e => "f:" ++ e, fun e => "g:" ++ e] }

/-- A configuration with two request interceptors: the first sets the
method to POST, the second appends "/g" to the url. -/
def interceptorPairConfig : PipeConfig :=
  { requestInterceptors := [fun a => { a with method := some "POST" },
                            fun a => { a with url := a.url ++ "/g" }],
    enableOptimisticUpdates := false }

/-- A configuration with optimistic updates enabled, everything else at
the source defaults. -/
def optOnConfig : PipeConfig := { enableOptimisticUpdates := true }

/-- A registry holding one fresh record for "id1" whose data is the falsy
number 0. -/
def zeroDataRegistry : OptimisticUpdates.OptState :=
  [("id1", { id := "id1", data := .jnum 0, rollbackId := 7, timestamp := 0 })]

/-- A registry holding one fresh record for "id1" with truthy data. -/
def payloadRegistry : OptimisticUpdates.OptState :=
  [("id1", { id := "id1", data := .jstr "payload", rollbackId := 7, timestamp := 0 })]

/-!
Theorems.  First the association-list facts used throughout, then helper
lemmas about single deduplicator steps, then the claims.
-/

theorem mapGet_mapSet_self {α : Type} (m : AssocList α) (k : String) (v : α) :
    mapGet (mapSet m k v) k = some v := by
  induction m with
  | nil => simp [mapSet, mapGet]
  | cons hd tl ih =>
      by_cases h : hd.1 = k
      · simp [mapSet, mapGet, h]
      · simpa [mapSet, mapGet, h] using ih

theorem mapGet_mapSet_ne {α : Type} (m : AssocList α) {k' k : String} (v : α)
    (h : k' ≠ k) : mapGet (mapSet m k' v) k = mapGet m k := by
  induction m with
  | nil => simp [mapSet, mapGet, h]
  | cons hd tl ih =>
      by_cases h1 : hd.1 = k'
      · simp [mapSet, mapGet, h1, h, Ne.symm h]
      · by_cases h2 : hd.1 = k
        · simp [mapSet, mapGet, h1, h2, Ne.symm h]
        · simpa [mapSet, mapGet, h1, h2] using ih

theorem mapGet_mapDelete_ne {α : Type} (m : AssocList α) {k' k : String}
    (h : k' ≠ k) : mapGet (mapDelete m k') k = mapGet m k := by
  induction m with
  | nil => simp [mapDelete, mapGet]
  | cons hd tl ih =>
      by_cases h1 : hd.1 = k'
      · simp [mapDelete, mapGet, h1, h, Ne.symm h]
      · by_cases h2 : hd.1 = k
        · simp [mapDelete, mapGet, h1, h2, Ne.symm h]
        · simpa [mapDelete, mapGet, h1, h2] using ih

theorem mapGet_eq_none_of_not_mem {α : Type} (m : AssocList α) (k : String)
    (h : k ∉ m.map Prod.fst) : mapGet m k = none := by
  induction m with
  | nil => simp [mapGet]
  | cons hd tl ih =>
      simp only [List.map_cons, List.mem_cons, not_or] at h
      rw [mapGet, if_neg (fun hc => h.1 hc.symm)]
      exact ih h.2

theorem mapGet_mapDelete_self {α : Type} (m : AssocList α) (k : String)
    (hnd : (m.map Prod.fst).Nodup) : mapGet (mapDelete m k) k = none := by
  induction m with
  | nil => simp [mapDelete, mapGet]
  | cons hd tl ih =>
      simp only [List.map_cons, List.nodup_cons] at hnd
      by_cases h1 : hd.1 = k
      · rw [mapDelete, if_pos h1]
        exact mapGet_eq_none_of_not_mem tl k (h1 ▸ hnd.1)
      · rw [mapDelete, if_neg h1, mapGet, if_neg h1]
        exact ih hnd.2

open RequestDeduplicator OptimisticUpdates

theorem deduplicate_joined {α : Type} (s : DedupState α) (k : String)
    (u : Bool) (t : Nat) (p : PendingRequest)
    (hp : mapGet s.pendingRequests k = some p)
    (hc : cacheFresh s k t = false) :
    deduplicate s k u t = (s, .joined p.opId) := by
  unfold deduplicate
  cases u with
  | false => simp [deduplicatePending, hp]
  | true =>
      unfold cacheFresh at hc
      cases hmg : mapGet s.cache k with
      | none => simp [hmg, deduplicatePending, hp]
      | some c =>
          rw [hmg] at hc
          simp only [] at hc
          simp [hmg, hc, deduplicatePending, hp]

theorem deduplicate_invoked {α : Type} (s : DedupState α) (k : String)
    (u : Bool) (t : Nat)
    (hp : mapGet s.pendingRequests k = none)
    (hc : cacheFresh s k t = false) :
    deduplicate s k u t =
      ({ pendingRequests := mapSet s.pendingRequests k { opId := s.nextOp, timestamp := t },
         cache := s.cache, nextOp := s.nextOp + 1 },
       .invoked s.nextOp) := by
  unfold deduplicate
  cases u with
  | false => simp [deduplicatePending, hp]
  | true =>
      unfold cacheFresh at hc
      cases hmg : mapGet s.cache k with
      | none => simp [hmg, deduplicatePending, hp]
      | some c =>
          rw [hmg] at hc
          simp only [] at hc
          simp [hmg, hc, deduplicatePending, hp]

theorem deduplicate_cache_eq {α : Type} (s : DedupState α) (k' : String)
    (u : Bool) (t : Nat) :
    ((deduplicate s k' u t).1).cache = s.cache := by
  unfold deduplicate deduplicatePending
  split
  · split
    · rfl
    · split <;> rfl
  · split <;> rfl

theorem deduplicate_pending_ne {α : Type} (s : DedupState α) {k' k : String}
    (u : Bool) (t : Nat) (h : k' ≠ k) :
    mapGet ((deduplicate s k' u t).1).pendingRequests k
      = mapGet s.pendingRequests k := by
  unfold deduplicate deduplicatePending
  split
  · split
    · rfl
    · split
      · rfl
      · simp only []
        exact mapGet_mapSet_ne _ _ h
  · split
    · rfl
    · simp only []
      exact mapGet_mapSet_ne _ _ h

theorem cacheFresh_congr {α : Type} {s s' : DedupState α} {k : String}
    (h : mapGet s'.cache k = mapGet s.cache k) (t : Nat) :
    cacheFresh s' k t = cacheFresh s k t := by
  unfold cacheFresh
  rw [h]

theorem cacheFresh_of_cache_eq {α : Type} {s s' : DedupState α} {k : String}
    (h : s'.cache = s.cache) (t : Nat) :
    cacheFresh s' k t = cacheFresh s k t := by
  unfold cacheFresh
  rw [h]

/-- C9: QueryBuilder merge semantics and build output.  Chained `where`
calls merge their conditions; a second `orderBy` overwrites only the
`sort` parameter (desc encoded as a minus prefix, asc unprefixed); and the
concrete chain of the spec produces exactly the stated descriptor. -/
theorem queryBuilder_merge_and_build :
    (((QueryBuilder.init "/api").«where» [("a", .jnum 1)]).«where»
        [("b", .jnum 2)]).queryParams = some [("a", .jnum 1), ("b", .jnum 2)] ∧
    (((QueryBuilder.init "/api").orderBy "x" "asc").orderBy "y" "desc").queryParams
      = some [("sort", .jstr "-y")] ∧
    ((QueryBuilder.init "/api").orderBy "x" "asc").queryParams
      = some [("sort", .jstr "x")] ∧
    (((((QueryBuilder.init "/api").«where» [("status", .jstr "published")]).orderBy
          "createdAt" "desc").limit 10).offset 0).build "/posts"
      = { url := "/api/posts", method := "GET",
          params := some [("status", .jstr "published"), ("sort", .jstr "-createdAt"),
                          ("_limit", .jnum 10), ("_start", .jnum 0)] } := by
  decide

/-- C4: cache TTL strict boundary.  With a cache entry written at `t0` and
no pending operation for the key, a `deduplicate(key, op, true)` lookup at
`t < t0 + CACHE_TTL` returns the entry verbatim without touching the state
or invoking the operation, and a lookup at `t ≥ t0 + CACHE_TTL` treats the
entry as absent and invokes the operation again. -/
theorem cache_ttl_strict_boundary (s : DedupState Nat) (k : String) (d : Nat)
    (t0 t : Nat)
    (hc : mapGet s.cache k = some { data := d, timestamp := t0 })
    (hp : mapGet s.pendingRequests k = none) :
    (t < t0 + CACHE_TTL → deduplicate s k true t = (s, .cached d)) ∧
    (t0 + CACHE_TTL ≤ t → (deduplicate s k true t).2 = .invoked s.nextOp) := by
  constructor
  · intro hlt
    have hv : isCacheValid t t0 = true := by
      simp only [isCacheValid, decide_eq_true_eq]
      simp only [CACHE_TTL] at hlt ⊢
      omega
    simp [deduplicate, hc, hv]
  · intro hge
    have hv : isCacheValid t t0 = false := by
      simp only [isCacheValid, decide_eq_false_iff_not, not_lt]
      simp only [CACHE_TTL] at hge ⊢
      omega
    simp [deduplicate, hc, hv, deduplicatePending, hp]

/-- Witness for C4 at a concrete state: entry written at time 0, lookup at
time 100 (inside the TTL) is served from the cache. -/
theorem cache_ttl_strict_boundary_witness :
    deduplicate
      { pendingRequests := [], cache := [("k", { data := 42, timestamp := 0 })],
        nextOp := 3 } "k" true 100
      = ({ pendingRequests := [], cache := [("k", { data := 42, timestamp := 0 })],
           nextOp := 3 }, .cached 42) :=
  (cache_ttl_strict_boundary
      { pendingRequests := [], cache := [("k", { data := 42, timestamp := 0 })],
        nextOp := 3 }
      "k" 42 0 100 (by decide) (by decide)).1 (by decide)

/-- C5: optimistic read after expiry.  For a record present in the
registry, `getUpdate` returns the stored data at any time strictly before
`createdAt + UPDATE_TTL` and `undefined` at any time from
`createdAt + UPDATE_TTL` on, even though the record is still present. -/
theorem getUpdate_ttl_expiry (s : OptState) (id : String)
    (u : OptimisticUpdate) (t : Nat)
    (h : mapGet s id = some u) :
    (t < u.timestamp + UPDATE_TTL → getUpdate s id t = some u.data) ∧
    (u.timestamp + UPDATE_TTL ≤ t → getUpdate s id t = none) := by
  constructor
  · intro hlt
    have hv : isUpdateValid t u.timestamp = true := by
      simp only [isUpdateValid, decide_eq_true_eq]
      simp only [UPDATE_TTL] at hlt ⊢
      omega
    simp [getUpdate, h, hv]
  · intro hge
    have hv : isUpdateValid t u.timestamp = false := by
      simp only [isUpdateValid, decide_eq_false_iff_not, not_lt]
      simp only [UPDATE_TTL] at hge ⊢
      omega
    simp [getUpdate, h, hv]

/-- Witness for C5: a record created at time 0 reads as absent at exactly
time `UPDATE_TTL`, although it is still physically present. -/
theorem getUpdate_ttl_expiry_witness :
    getUpdate [("a", { id := "a", data := .jstr "v", rollbackId := 1, timestamp := 0 })]
      "a" 300000 = none :=
  (getUpdate_ttl_expiry
      [("a", { id := "a", data := .jstr "v", rollbackId := 1, timestamp := 0 })] "a"
      { id := "a", data := .jstr "v", rollbackId := 1, timestamp := 0 } 300000
      (by decide)).2 (by decide)

/-- C6: rollback semantics.  With no record for the id, `rollbackUpdate`
leaves the registry unchanged and invokes no callback; with a record
present (no expiry check), it invokes exactly that record's rollback
callback once and removes the record, after which `getUpdate` returns
`undefined` at every time and a second `rollbackUpdate` does nothing. -/
theorem rollbackUpdate_semantics (s : OptState) (id : String)
    (hnd : (s.map Prod.fst).Nodup) :
    (mapGet s id = none → rollbackUpdate s id = (s, [])) ∧
    (∀ u, mapGet s id = some u →
        rollbackUpdate s id = (removeUpdate s id, [u.rollbackId]) ∧
        (∀ t, getUpdate (removeUpdate s id) id t = none) ∧
        rollbackUpdate (removeUpdate s id) id = (removeUpdate s id, [])) := by
  constructor
  · intro h
    simp [rollbackUpdate, h]
  · intro u hu
    have hdel : mapGet (mapDelete s id) id = none := mapGet_mapDelete_self s id hnd
    refine ⟨by simp [rollbackUpdate, hu], ?_, ?_⟩
    · intro t
      simp [getUpdate, removeUpdate, hdel]
    · simp [rollbackUpdate, removeUpdate, hdel]

/-- C2 demonstration: rejection does NOT clear the pending entry.  On a
fresh deduplicator, a first `deduplicate("k", op)` invokes operation 0;
the operation rejects (no continuation runs, since the source attaches
only a fulfillment handler); the pending entry for "k" is still present
and no cache entry exists; and a subsequent `deduplicate("k", opPrime)`
returns the stored (already rejected) promise of operation 0 instead of
invoking anything — the caller receives the replayed rejection. -/
theorem rejected_operation_leaves_pending :
    (deduplicate (emptyDedup Nat) "k" true 0).2 = .invoked 0 ∧
    mapGet (onRejected (deduplicate (emptyDedup Nat) "k" true 0).1 "k").pendingRequests
        "k" = some { opId := 0, timestamp := 0 } ∧
    mapGet (onRejected (deduplicate (emptyDedup Nat) "k" true 0).1 "k").cache "k"
      = none ∧
    (deduplicate (onRejected (deduplicate (emptyDedup Nat) "k" true 0).1 "k")
        "k" true 1).2 = .joined 0 ∧
    CallOutcome.delivered (fun _ => Settled.rejected 9)
        (CallOutcome.joined 0 : CallOutcome Nat) = .rejected 9 := by
  decide

/-- Invariant of the trace semantics: while a pending entry for `k` is in
place and no event settles the operation for `k` (and the cache never
turns fresh for `k` at any of the call times), the pending entry and the
cache line for `k` are preserved and every caller for `k` joins the stored
promise. -/
theorem runTrace_joined_of_pending {α : Type} (k : String) (p : PendingRequest) :
    ∀ (evs : List (DedupEv α)) (s : DedupState α),
      mapGet s.pendingRequests k = some p →
      (∀ e ∈ evs, e.isSettleFor k = false) →
      (∀ e ∈ evs, ∀ t, e.callTimeFor k = some t → cacheFresh s k t = false) →
      mapGet (runTrace s evs).1.pendingRequests k = some p ∧
      mapGet (runTrace s evs).1.cache k = mapGet s.cache k ∧
      (∀ r ∈ (runTrace s evs).2, r.key = k → r.out = CallOutcome.joined p.opId) := by
  intro evs
  induction evs with
  | nil =>
      intro s hp _ _
      refine ⟨?_, ?_, ?_⟩ <;> simp [runTrace, hp]
  | cons e rest ih =>
      intro s hp hs hf
      have hsrest : ∀ e' ∈ rest, DedupEv.isSettleFor e' k = false :=
        fun e' he' => hs e' (List.mem_cons_of_mem _ he')
      cases e with
      | call k' u t =>
          by_cases hk : k' = k
          · subst hk
            have hcf : cacheFresh s k' t = false := by
              have := hf (.call k' u t) (List.mem_cons_self _ _) t
              simpa [DedupEv.callTimeFor] using this
            have hstep : deduplicate s k' u t = (s, .joined p.opId) :=
              deduplicate_joined s k' u t p hp hcf
            have hrest := ih s hp hsrest
                (fun e' he' t' ht' => hf e' (List.mem_cons_of_mem _ he') t' ht')
            refine ⟨?_, ?_, ?_⟩
            · simpa [runTrace, hstep] using hrest.1
            · simpa [runTrace, hstep] using hrest.2.1
            · intro r hr hrk
              simp only [runTrace, hstep, List.mem_cons] at hr
              rcases hr with hr | hr
              · rw [hr]
              · exact hrest.2.2 r hr hrk
          · have hcacheEq : ((deduplicate s k' u t).1).cache = s.cache :=
              deduplicate_cache_eq s k' u t
            have hpendEq : mapGet ((deduplicate s k' u t).1).pendingRequests k
                = mapGet s.pendingRequests k :=
              deduplicate_pending_ne s u t hk
            have hfrest : ∀ e' ∈ rest, ∀ t', DedupEv.callTimeFor e' k = some t' →
                cacheFresh (deduplicate s k' u t).1 k t' = false := by
              intro e' he' t' ht'
              rw [cacheFresh_of_cache_eq hcacheEq t']
              exact hf e' (List.mem_cons_of_mem _ he') t' ht'
            have hrest := ih ((deduplicate s k' u t).1) (hpendEq.trans hp)
                hsrest hfrest
            refine ⟨?_, ?_, ?_⟩
            · simpa [runTrace] using hrest.1
            · simp only [runTrace]
              exact hrest.2.1.trans (by rw [hcacheEq])
            · intro r hr hrk
              simp only [runTrace, List.mem_cons] at hr
              rcases hr with hr | hr
              · rw [hr] at hrk
                exact absurd hrk hk
              · exact hrest.2.2 r hr hrk
      | resolve k' d t =>
          have hk : k' ≠ k := by
            have := hs (.resolve k' d t) (List.mem_cons_self _ _)
            simpa [DedupEv.isSettleFor] using this
          have hpendEq : mapGet (onFulfilled s k' d t).pendingRequests k
              = mapGet s.pendingRequests k := by
            simp only [onFulfilled]
            exact mapGet_mapDelete_ne _ hk
          have hcacheEq : mapGet (onFulfilled s k' d t).cache k = mapGet s.cache k := by
            simp only [onFulfilled]
            exact mapGet_mapSet_ne _ _ hk
          have hfrest : ∀ e' ∈ rest, ∀ t', DedupEv.callTimeFor e' k = some t' →
              cacheFresh (onFulfilled s k' d t) k t' = false := by
            intro e' he' t' ht'
            rw [cacheFresh_congr hcacheEq t']
            exact hf e' (List.mem_cons_of_mem _ he') t' ht'
          have hrest := ih (onFulfilled s k' d t) (hpendEq.trans hp) hsrest hfrest
          refine ⟨?_, ?_, ?_⟩
          · simpa [runTrace] using hrest.1
          · simp only [runTrace]
            exact hrest.2.1.trans hcacheEq
          · intro r hr hrk
            simp only [runTrace] at hr
            exact hrest.2.2 r hr hrk
      | reject k' t =>
          have hrest := ih s hp hsrest
              (fun e' he' t' ht' => hf e' (List.mem_cons_of_mem _ he') t' ht')
          refine ⟨?_, ?_, ?_⟩
          · simpa [runTrace, onRejected] using hrest.1
          · simpa [runTrace, onRejected] using hrest.2.1
          · intro r hr hrk
            simp only [runTrace, onRejected] at hr
            exact hrest.2.2 r hr hrk

/-- C1: dedup single-flight.  On a state with no pending entry for `k`
and no fresh cache entry (at the first call's time nor at any of the later
call times), the first `deduplicate(k, op)` call invokes the operation
(with the fresh identity `s.nextOp`), and as long as that operation has
not settled, every later `deduplicate(k, ...)` call joins that same
in-flight promise: no second operation for `k` is ever invoked (so two
underlying operations for `k` are never in flight concurrently), and every
caller is delivered the one settlement of that single invocation,
whatever it is (the identical value or the identical rejection). -/
theorem dedup_single_flight (s : DedupState Nat) (k : String) (u0 : Bool)
    (t0 : Nat) (evs : List (DedupEv Nat))
    (hnp : mapGet s.pendingRequests k = none)
    (hc0 : cacheFresh s k t0 = false)
    (hsettle : ∀ e ∈ evs, e.isSettleFor k = false)
    (hstale : ∀ e ∈ evs, ∀ t, e.callTimeFor k = some t → cacheFresh s k t = false) :
    (deduplicate s k u0 t0).2 = .invoked s.nextOp ∧
    (∀ r ∈ (runTrace (deduplicate s k u0 t0).1 evs).2, r.key = k →
        r.out = .joined s.nextOp) ∧
    (∀ settle : Nat → Settled Nat,
        ∀ r ∈ (runTrace (deduplicate s k u0 t0).1 evs).2, r.key = k →
          CallOutcome.delivered settle r.out
            = CallOutcome.delivered settle ((deduplicate s k u0 t0).2)) := by
  have hinv := deduplicate_invoked s k u0 t0 hnp hc0
  have hpend1 : mapGet ((deduplicate s k u0 t0).1).pendingRequests k
      = some { opId := s.nextOp, timestamp := t0 } := by
    rw [hinv]
    exact mapGet_mapSet_self _ _ _
  have hcache1 : ((deduplicate s k u0 t0).1).cache = s.cache := by rw [hinv]
  have hstale1 : ∀ e ∈ evs, ∀ t, DedupEv.callTimeFor e k = some t →
      cacheFresh (deduplicate s k u0 t0).1 k t = false := by
    intro e he t ht
    rw [cacheFresh_of_cache_eq hcache1 t]
    exact hstale e he t ht
  have hmain := runTrace_joined_of_pending k { opId := s.nextOp, timestamp := t0 }
      evs (deduplicate s k u0 t0).1 hpend1 hsettle hstale1
  refine ⟨by rw [hinv], ?_, ?_⟩
  · intro r hr hrk
    exact hmain.2.2 r hr hrk
  · intro settle r hr hrk
    rw [hmain.2.2 r hr hrk, hinv]
    rfl

/-- Witness for C1: three concurrent callers for key "k" against a fresh
deduplicator, the two later ones arriving before any settlement; the
hypotheses hold and the first call invokes operation 0. -/
theorem dedup_single_flight_witness :
    (deduplicate (emptyDedup Nat) "k" true 0).2 = .invoked 0 :=
  (dedup_single_flight (emptyDedup Nat) "k" true 0
      [.call "k" true 1, .call "k" false 2] rfl rfl
      (by decide)
      (fun _ _ _ _ => rfl)).1

/-- Witness for C6: a one-record registry; rolling back invokes callback 5
once and leaves the registry empty. -/
theorem rollbackUpdate_semantics_witness :
    rollbackUpdate [("a", { id := "a", data := .jnum 1, rollbackId := 5, timestamp := 0 })]
      "a"
      = (removeUpdate [("a", { id := "a", data := .jnum 1, rollbackId := 5, timestamp := 0 })] "a",
         [5]) :=
  ((rollbackUpdate_semantics
      [("a", { id := "a", data := .jnum 1, rollbackId := 5, timestamp := 0 })] "a"
      (by decide)).2
      { id := "a", data := .jnum 1, rollbackId := 5, timestamp := 0 } (by decide)).1

/-- C3 demonstration: the error-interceptor loop passes the ORIGINAL error
to every interceptor (`modifiedError = await interceptor(error)`), so with
interceptors [f, g] the failure reaching the caller is built from g(e) —
the value f returned is discarded — while the claim (and the request- and
response-interceptor loops of the same source) require g(f(e)).  The fixed
"Request failed: " prefix is still prepended. -/
theorem error_interceptors_receive_original :
    (lucentQuery errPairConfig (emptyDedup QueryResult) [] (statusEnv 500)
        { url := "/x" }).1
      = .error ("Request failed: " ++ ("g:" ++ "Request failed with status 500")) ∧
    (lucentQuery errPairConfig (emptyDedup QueryResult) [] (statusEnv 500)
        { url := "/x" }).1
      ≠ .error ("Request failed: "
          ++ ("g:" ++ ("f:" ++ "Request failed with status 500"))) := by
  decide

/-- C7 counterexample: optimistic updates enabled, and a live (age 0,
well within the TTL) record exists for the carried id "id1" — yet, because
its stored data is the falsy value 0, `if (optimisticData)` fails, the
short-circuit does not fire, `fetchFn` IS invoked, and the caller receives
the server response rather than the record's data. -/
theorem optimistic_short_circuit_falsy_cex :
    OptimisticUpdates.getUpdate zeroDataRegistry "id1" 0 = some (.jnum 0) ∧
    (lucentQuery optOnConfig (emptyDedup QueryResult) zeroDataRegistry
        (statusEnv 200) { url := "/x", optimisticUpdateId := some "id1" }).2.2.2.fetchCalls
      = [("/x", { method := "GET", headers := [("Content-Type", "application/json")],
                  body := none })] ∧
    (lucentQuery optOnConfig (emptyDedup QueryResult) zeroDataRegistry
        (statusEnv 200) { url := "/x", optimisticUpdateId := some "id1" }).1
      ≠ .ok { data := .jnum 0,
              meta := { requestUrl := "/x",
                        requestInit := { method := "GET", headers := [], body := none },
                        response := emptyResponse } } := by
  decide

/-- Helper: under the conditions the source tests — optimistic updates
enabled, a truthy `optimisticUpdateId` on the post-interceptor descriptor,
a live registry record for it, and truthy stored data — the pipeline call
returns that data in the standard result shape, leaves both registries
untouched and performs no fetch and no deduplicator access. -/
theorem lucentQuery_short_circuit_eq (cfg : PipeConfig)
    (dedup : DedupState QueryResult) (opt : OptState) (env : PipeEnv)
    (args margs : QueryArgs) (i : String) (u : OptimisticUpdate)
    (hen : cfg.enableOptimisticUpdates = true)
    (hm : applyRequestInterceptors cfg.requestInterceptors args = margs)
    (hid : margs.optimisticUpdateId = some i)
    (hit : strTruthy i = true)
    (hu : mapGet opt i = some u)
    (hlive : isUpdateValid env.now u.timestamp = true)
    (htr : u.data.truthy = true) :
    lucentQuery cfg dedup opt env args =
      (.ok { data := u.data,
             meta := { requestUrl := margs.url,
                       requestInit := { method := margs.method.getD "GET",
                                        headers := [], body := none },
                       response := emptyResponse } },
       dedup, opt, { fetchCalls := [], dedupKeys := [] }) := by
  have hsc : optShortCircuit cfg opt env.now margs = some u.data := by
    simp [optShortCircuit, hen, hid, hit, OptimisticUpdates.getUpdate, hu, hlive, htr]
  simp [lucentQuery, lucentQueryBody, hm, hsc]

/-- C7 (amended): if optimistic updates are enabled and the
post-interceptor descriptor carries a truthy (non-empty)
`optimisticUpdateId` for which a live (non-expired) record with TRUTHY
data exists, the pipeline returns that record's data wrapped in the
standard result shape and performs no network I/O for the call: `fetchFn`
is never invoked and no deduplicator entry is created. -/
theorem optimistic_short_circuit (cfg : PipeConfig)
    (dedup : DedupState QueryResult) (opt : OptState) (env : PipeEnv)
    (args margs : QueryArgs) (i : String) (u : OptimisticUpdate)
    (hen : cfg.enableOptimisticUpdates = true)
    (hm : applyRequestInterceptors cfg.requestInterceptors args = margs)
    (hid : margs.optimisticUpdateId = some i)
    (hit : strTruthy i = true)
    (hu : mapGet opt i = some u)
    (hlive : isUpdateValid env.now u.timestamp = true)
    (htr : u.data.truthy = true) :
    lucentQuery cfg dedup opt env args =
      (.ok { data := u.data,
             meta := { requestUrl := margs.url,
                       requestInit := { method := margs.method.getD "GET",
                                        headers := [], body := none },
                       response := emptyResponse } },
       dedup, opt, { fetchCalls := [], dedupKeys := [] }) :=
  lucentQuery_short_circuit_eq cfg dedup opt env args margs i u
    hen hm hid hit hu hlive htr

/-- Witness for C7: a truthy record for "id1" short-circuits the concrete
call, with empty effects and unchanged registries. -/
theorem optimistic_short_circuit_witness :
    lucentQuery optOnConfig (emptyDedup QueryResult) payloadRegistry
        (statusEnv 200) { url := "/x", optimisticUpdateId := some "id1" }
      = (.ok { data := .jstr "payload",
               meta := { requestUrl := "/x",
                         requestInit := { method := "GET", headers := [], body := none },
                         response := emptyResponse } },
         emptyDedup QueryResult, payloadRegistry,
         { fetchCalls := [], dedupKeys := [] }) :=
  optimistic_short_circuit optOnConfig (emptyDedup QueryResult) payloadRegistry
    (statusEnv 200) { url := "/x", optimisticUpdateId := some "id1" }
    { url := "/x", optimisticUpdateId := some "id1" } "id1"
    { id := "id1", data := .jstr "payload", rollbackId := 7, timestamp := 0 }
    rfl rfl rfl (by decide) (by decide) (by decide) (by decide)

/-- C10: frame of the optimistic short-circuit.  When it fires, the
registry is unchanged (the record is not consumed), the deduplicator's
pending map and cache are unchanged, no fetch happens and no deduplication
key is derived, the configured response interceptors are never applied
(the output does not depend on them at all), and an immediately repeated
call against the returned registries short-circuits identically. -/
theorem optimistic_short_circuit_frame (cfg : PipeConfig)
    (dedup : DedupState QueryResult) (opt : OptState) (env : PipeEnv)
    (args margs : QueryArgs) (i : String) (u : OptimisticUpdate)
    (hen : cfg.enableOptimisticUpdates = true)
    (hm : applyRequestInterceptors cfg.requestInterceptors args = margs)
    (hid : margs.optimisticUpdateId = some i)
    (hit : strTruthy i = true)
    (hu : mapGet opt i = some u)
    (hlive : isUpdateValid env.now u.timestamp = true)
    (htr : u.data.truthy = true) :
    (lucentQuery cfg dedup opt env args).2.2.1 = opt ∧
    (lucentQuery cfg dedup opt env args).2.1 = dedup ∧
    (lucentQuery cfg dedup opt env args).2.2.2.fetchCalls = [] ∧
    (lucentQuery cfg dedup opt env args).2.2.2.dedupKeys = [] ∧
    (∀ rs, lucentQuery { cfg with responseInterceptors := rs } dedup opt env args
        = lucentQuery cfg dedup opt env args) ∧
    lucentQuery cfg (lucentQuery cfg dedup opt env args).2.1
        (lucentQuery cfg dedup opt env args).2.2.1 env args
      = lucentQuery cfg dedup opt env args := by
  have h := lucentQuery_short_circuit_eq cfg dedup opt env args margs i u
      hen hm hid hit hu hlive htr
  refine ⟨by rw [h], by rw [h], by rw [h], by rw [h], ?_, ?_⟩
  · intro rs
    have h2 := lucentQuery_short_circuit_eq { cfg with responseInterceptors := rs }
        dedup opt env args margs i u (by simpa using hen) (by simpa using hm)
        hid hit hu hlive htr
    rw [h, h2]
  · have hd : (lucentQuery cfg dedup opt env args).2.1 = dedup := by rw [h]
    have ho : (lucentQuery cfg dedup opt env args).2.2.1 = opt := by rw [h]
    rw [hd, ho]

/-- Witness for C10: at the concrete short-circuiting call, the registry
comes back unchanged. -/
theorem optimistic_short_circuit_frame_witness :
    (lucentQuery optOnConfig (emptyDedup QueryResult) payloadRegistry
        (statusEnv 200) { url := "/x", optimisticUpdateId := some "id1" }).2.2.1
      = payloadRegistry :=
  (optimistic_short_circuit_frame optOnConfig (emptyDedup QueryResult) payloadRegistry
    (statusEnv 200) { url := "/x", optimisticUpdateId := some "id1" }
    { url := "/x", optimisticUpdateId := some "id1" } "id1"
    { id := "id1", data := .jstr "payload", rollbackId := 7, timestamp := 0 }
    rfl rfl rfl (by decide) (by decide) (by decide) (by decide)).1

/-- C8: request interceptor ordering.  With request interceptors [f, g],
the post-interceptor descriptor is g(f(d)); when the optimistic
short-circuit is off and the deduplicator has no entry for the derived
key, the one fetch call the pipeline performs is built from g(f(d)) and
the key passed to the deduplicator is the serialization of g(f(d)). -/
theorem request_interceptor_ordering (cfg : PipeConfig)
    (dedup : DedupState QueryResult) (opt : OptState) (env : PipeEnv)
    (f g : QueryArgs → QueryArgs) (d : QueryArgs)
    (hreq : cfg.requestInterceptors = [f, g])
    (hopt : cfg.enableOptimisticUpdates = false)
    (hded : cfg.enableDeduplication = true)
    (hpend : mapGet dedup.pendingRequests (serializeArgs (g (f d))) = none)
    (hcache : mapGet dedup.cache (serializeArgs (g (f d))) = none) :
    applyRequestInterceptors cfg.requestInterceptors d = g (f d) ∧
    (lucentQuery cfg dedup opt env d).2.2.2
      = { fetchCalls := [buildFetchCall cfg (g (f d))],
          dedupKeys := [serializeArgs (g (f d))] } := by
  have hm : applyRequestInterceptors cfg.requestInterceptors d = g (f d) := by
    rw [hreq]
    rfl
  refine ⟨hm, ?_⟩
  have hsc : optShortCircuit cfg opt env.now (g (f d)) = none := by
    simp [optShortCircuit, hopt]
  have hcf : cacheFresh dedup (serializeArgs (g (f d))) env.now = false := by
    unfold cacheFresh
    rw [hcache]
  have hinv := deduplicate_invoked dedup (serializeArgs (g (f d))) true env.now
      hpend hcf
  cases hfo : env.fetchFn (buildFetchCall cfg (g (f d))).1 (buildFetchCall cfg (g (f d))).2 with
  | netErr msg =>
      simp [lucentQuery, lucentQueryBody, hm, hsc, lucentQueryRest, hded,
        deduplicateExec, hinv, makeRequest, hfo]
  | ok resp =>
      by_cases hv : ((g (f d)).validateStatus.getD defaultValidateStatus) resp.status
      · simp [lucentQuery, lucentQueryBody, hm, hsc, lucentQueryRest, hded,
          deduplicateExec, hinv, makeRequest, hfo, hv]
      · simp [lucentQuery, lucentQueryBody, hm, hsc, lucentQueryRest, hded,
          deduplicateExec, hinv, makeRequest, hfo, hv]

/-- Witness for C8 at a concrete pair of interceptors: the fetch call and
the deduplication key are derived from g(f(d)), i.e. from the descriptor
with the method set by f and the url suffix appended by g. -/
theorem request_interceptor_ordering_witness :
    (lucentQuery interceptorPairConfig (emptyDedup QueryResult) [] (statusEnv 200)
        { url := "/d" }).2.2.2
      = { fetchCalls := [buildFetchCall interceptorPairConfig
            { url := "/d/g", method := some "POST" }],
          dedupKeys := [serializeArgs { url := "/d/g", method := some "POST" }] } :=
  (request_interceptor_ordering interceptorPairConfig (emptyDedup QueryResult) []
    (statusEnv 200)
    (fun a => { a with method := some "POST" })
    (fun a => { a with url := a.url ++ "/g" })
    { url := "/d" } rfl rfl rfl rfl rfl).2

end Lucent
